import Mathlib

/-!
Shallow embedding of the transit LED-matrix sign (`src/code.py`).

The embedding mirrors the Python source function by function:
- string helpers model Python `str.split` / `int()` / `float()` truncation;
- `mktimeE` models CircuitPython `time.mktime` (pure calendar arithmetic,
  with C-style month normalization, no timezone database);
- `parse_iso8601_to_utc`, `get_current_time_utc`, `parse_train_times`,
  `format_train_text_with_badges`, `get_next_trains_by_route`,
  `fetch_weather_data` mirror the methods of the same names;
- `scrollAdvance` / `cycleSteps` model the per-tick scroll animation of the
  `__main__` loop, and `sessionStep` models one iteration of that loop.

Fallible Python code (uncaught `ValueError` / `IndexError`) is modelled with
`Option`; the catch-all handler of the main loop is a branch of `sessionStep`.
-/

/-- Models Python `s.split(c)` for a single-character separator:
`"a-b".split('-') == ["a","b"]`, `"".split('-') == [""]`. -/
def splitOnChar (c : Char) : List Char → List (List Char)
  | [] => [[]]
  | x :: xs =>
    if x = c then [] :: splitOnChar c xs
    else
      match splitOnChar c xs with
      | [] => [[x]]
      | h :: t => (x :: h) :: t

/-- Digits-only numeral parsing; empty input is an error, as in Python `int("")`. -/
def parseDigitsChars (l : List Char) : Option Nat :=
  match l with
  | [] => none
  | _ =>
    l.foldl
      (fun acc c =>
        match acc with
        | none => none
        | some a => if c.isDigit then some (a * 10 + (c.toNat - 48)) else none)
      (some 0)

/-- Models Python `int(s)` on a bare decimal literal with optional sign. -/
def parseIntChars (l : List Char) : Option Int :=
  match l with
  | '-' :: rest => (parseDigitsChars rest).map (fun n => -(n : Int))
  | '+' :: rest => (parseDigitsChars rest).map (fun n => (n : Int))
  | _ => (parseDigitsChars l).map (fun n => (n : Int))

/-- Models Python `int(float(s))` on a plain decimal literal: the fractional part
is truncated (toward zero), exactly as `int()` does on a float. -/
def parsePyFloatTrunc (l : List Char) : Option Int :=
  match splitOnChar '.' l with
  | [a] => parseIntChars a
  | [a, b] =>
    if b ≠ [] ∧ b.all Char.isDigit = true then
      match a with
      | [] => some 0
      | ['+'] => some 0
      | ['-'] => some 0
      | _ => parseIntChars a
    else if a ≠ [] ∧ b = [] then parseIntChars a
    else none
  | _ => none

/-- Days from 1970-01-01 to the given civil date, with C-`mktime`-style
normalization of out-of-range months (they carry into the year). -/
def daysFromCivil (y m d : Int) : Int :=
  let mm := m - 1
  let y1 := y + mm.fdiv 12
  let m1 := mm.emod 12 + 1
  let y2 := if m1 ≤ 2 then y1 - 1 else y1
  let era := y2.fdiv 400
  let yoe := y2 - era * 400
  let doy := (153 * (if 2 < m1 then m1 - 3 else m1 + 9) + 2).fdiv 5 + (d - 1)
  let doe := yoe * 365 + yoe.fdiv 4 - yoe.fdiv 100 + doy
  era * 146097 + doe - 719468

/-- Models CircuitPython `time.mktime((y, m, d, h, mi, s, 0, 0, -1))`:
pure calendar arithmetic over the fields, yielding epoch seconds.  No timezone
is applied (the board has no timezone database); out-of-range fields carry. -/
def mktimeE (y m d h mi s : Int) : Int :=
  daysFromCivil y m d * 86400 + h * 3600 + mi * 60 + s

/-- Core of `TrainTimeParser.parse_iso8601_to_utc` (src/code.py lines 113-149),
over the character list of the input.  Mirrors the Python control flow:
split on the last `'+'` if present, else on the last `'-'` (falling back to a
zero offset when the candidate holds no `':'`); then positional parsing of the
date, time and offset fields; uncaught `ValueError` becomes `none`. -/
def parse_iso8601_core (l : List Char) : Option Int :=
  let dtz : List Char × List Char × Int :=
    if l.contains '+' then
      let parts := splitOnChar '+' l
      (List.intercalate ['+'] parts.dropLast, parts.getLastD [], 1)
    else
      let parts := splitOnChar '-' l
      if 2 ≤ parts.length then
        let cand := parts.getLastD []
        (List.intercalate ['-'] parts.dropLast,
         if cand.contains ':' then cand else ['0', '0', ':', '0', '0'], -1)
      else (l, ['0', '0', ':', '0', '0'], -1)
  match splitOnChar 'T' dtz.1 with
  | [date_part, time_part] =>
    match (splitOnChar '-' date_part).mapM parseIntChars,
          (splitOnChar ':' time_part).mapM parseIntChars,
          (splitOnChar ':' dtz.2.1).mapM parseIntChars with
    | some [y, mo, d], some [h, mi, s], some [tzh, tzm] =>
      some (mktimeE y mo d h mi s - dtz.2.2 * (tzh * 3600 + tzm * 60))
    | _, _, _ => none
  | _ => none

/-- `TrainTimeParser.parse_iso8601_to_utc` on a `String`. -/
def parse_iso8601_to_utc (s : String) : Option Int :=
  parse_iso8601_core s.toList

/-- The shapes `network.get_local_time()` can return, per the dispatch in
`TrainTimeParser.get_current_time_utc` (src/code.py lines 61-111): a numeric
epoch, a `struct_time` (here: its six calendar fields), a formatted string, or
anything else. -/
inductive TimeResponse where
  | num : Int → TimeResponse
  | tstruct : Int → Int → Int → Int → Int → Int → TimeResponse
  | text : String → TimeResponse
  | unknown : TimeResponse
deriving DecidableEq

/-- Date token parsing inside the string branch: Python
`year, month, day = map(int, date_str.split('-'))`; a wrong field count or a
non-numeric field raises `ValueError` (handled by the caller). -/
def parseClockDate (l : List Char) : Option (Int × Int × Int) :=
  match (splitOnChar '-' l).mapM parseIntChars with
  | some [y, m, d] => some (y, m, d)
  | _ => none

/-- Time token parsing: `hour, minute, second_float = time_str.split(':')`,
`second = int(float(second_float))` (fractional seconds truncated). -/
def parseClockTime (l : List Char) : Option (Int × Int × Int) :=
  match splitOnChar ':' l with
  | [hs, ms, ss] =>
    match parseIntChars hs, parseIntChars ms, parsePyFloatTrunc ss with
    | some h, some mi, some s => some (h, mi, s)
    | _, _, _ => none
  | _ => none

/-- Offset token parsing: sign from the first character (`'+'` means +1,
anything else -1), hours from characters 1-2, minutes from characters 3-4
(Python slices `tz[1:3]`, `tz[3:5]`); `int("")` and non-digits raise. -/
def parseTzOffset (tz : List Char) : Option Int :=
  match tz with
  | [] => none
  | c0 :: rest =>
    let sign : Int := if c0 = '+' then 1 else -1
    match parseIntChars (rest.take 2), parseIntChars ((rest.drop 2).take 2) with
    | some hh, some mm => some (sign * (hh * 3600 + mm * 60))
    | _, _ => none

/-- The formatted-string branch of `get_current_time_utc` (lines 76-105):
whitespace-split the reading, take tokens 0 (date), 1 (time) and, when more
than four tokens exist, token 4 as the `±HHMM` offset (default `"+0000"`);
on any `ValueError` / `IndexError` fall back to the wall clock
(`time.time()`), passed here as `wall`. -/
def parseClockString (l : List Char) (wall : Int) : Int :=
  let parts := (splitOnChar ' ' l).filter (fun w => w ≠ [])
  match parts with
  | date_str :: time_str :: rest =>
    let tz_offset_str :=
      if 4 < (date_str :: time_str :: rest).length then rest.getD 2 []
      else ['+', '0', '0', '0', '0']
    match parseClockDate date_str, parseClockTime time_str,
          parseTzOffset tz_offset_str with
    | some (y, mo, d), some (h, mi, s), some off => mktimeE y mo d h mi s - off
    | _, _, _ => wall
  | _ => wall

/-- `TrainTimeParser.get_current_time_utc` (lines 61-111).  `wall` models
`time.time()`, the host wall clock used by the fallback paths. -/
def get_current_time_utc (resp : TimeResponse) (wall : Int) : Int :=
  match resp with
  | .num e => e
  | .tstruct y m d h mi s => mktimeE y m d h mi s
  | .text s => parseClockString s.toList wall
  | .unknown => wall

/-- One arrival record of the feed: `{"route": ..., "time": ...}`. -/
structure Train where
  route : String
  time : String
deriving DecidableEq

/-- One filtered arrival as produced by `parse_train_times`. -/
structure TrainOut where
  route : String
  minutes_until : Int
  time : String
deriving DecidableEq

/-- One station object of the feed, with optional `"N"` / `"S"` lists. -/
structure StationData where
  N : Option (List Train)
  S : Option (List Train)
deriving DecidableEq

/-- The feed payload; `dataField` models the optional top-level `"data"` key. -/
structure Payload where
  dataField : Option (List StationData)
deriving DecidableEq

/-- The `{'northbound': ..., 'southbound': ...}` result of `parse_train_times`. -/
structure ParseResult where
  northbound : List TrainOut
  southbound : List TrainOut
deriving DecidableEq

/-- The per-record body of the two direction loops in `parse_train_times`
(lines 252-276): parse the arrival time, compute
`minutes = int((train_utc - current_utc) / 60)` (truncation toward zero), and
keep the record only when `minutes > min_minutes`. -/
def filterFn (now mn : Int) (t : Train) : Option TrainOut :=
  (parse_iso8601_to_utc t.time).bind fun u =>
    if mn < Int.tdiv (u - now) 60 then some ⟨t.route, Int.tdiv (u - now) 60, t.time⟩
    else none

/-- One direction loop of `parse_train_times`; an unparseable arrival time
raises out of the whole call (`none`). -/
def processDirection (now mn : Int) : List Train → Option (List TrainOut)
  | [] => some []
  | t :: ts =>
    match parse_iso8601_to_utc t.time with
    | none => none
    | some u =>
      let m := Int.tdiv (u - now) 60
      match processDirection now mn ts with
      | none => none
      | some rest => some (if mn < m then ⟨t.route, m, t.time⟩ :: rest else rest)

/-- `TrainTimeParser.parse_train_times` (lines 226-278).  It first refreshes
`current_utc` via `get_current_time_utc` (so it takes the raw clock response
and the wall clock), returns the empty result when the `"data"` key is absent
or its list is empty, and otherwise filters both direction lists of the first
station. -/
def parse_train_times (resp : TimeResponse) (wall : Int) (payload : Payload)
    (mn : Int) : Option ParseResult :=
  let current_utc := get_current_time_utc resp wall
  match payload.dataField with
  | none => some ⟨[], []⟩
  | some [] => some ⟨[], []⟩
  | some (st :: _) =>
    match (match st.N with
           | none => some []
           | some ts => processDirection current_utc mn ts),
          (match st.S with
           | none => some []
           | some ts => processDirection current_utc mn ts) with
    | some nb, some sb => some ⟨nb, sb⟩
    | _, _ => none

/-- Append `m` to the list held under key `r` of an insertion-ordered
association list, adding the key at the end when absent — the
`route_times[route].append(mins)` dict idiom of
`format_train_text_with_badges`. -/
def addTime : List (String × List Int) → String → Int → List (String × List Int)
  | [], r, m => [(r, [m])]
  | (r', ms) :: rest, r, m =>
    if r' = r then (r', ms ++ [m]) :: rest else (r', ms) :: addTime rest r m

/-- The `route_times` dict of `format_train_text_with_badges` (lines 427-433),
keys in insertion order. -/
def routeTimes (trains : List TrainOut) : List (String × List Int) :=
  trains.foldl (fun acc t => addTime acc t.route t.minutes_until) []

/-- Dict lookup on the association list; absent keys give `[]`. -/
def lookupTimes : List (String × List Int) → String → List Int
  | [], _ => []
  | (r', ms) :: rest, r => if r' = r then ms else lookupTimes rest r

/-- Python's string comparison: lexicographic by code point; a string that
runs out first compares as less-or-equal. -/
def lexLeChars : List Char → List Char → Bool
  | [], _ => true
  | _ :: _, [] => false
  | a :: as, b :: bs => if a = b then lexLeChars as bs else decide (a < b)

/-- `a <= b` in Python's string order. -/
def strLe (a b : String) : Bool := lexLeChars a.toList b.toList

/-- Python `sorted` on route keys (lexicographic, stable). -/
def sortStrings (l : List String) : List String :=
  List.insertionSort (fun a b => strLe a b = true) l

/-- `','.join(str(t) for t in ...)`. -/
def joinCommaInts (l : List Int) : String :=
  String.intercalate ("," ) (l.map toString)

/-- `format_train_text_with_badges` (lines 412-441), for one direction:
group the filtered arrivals by route in first-seen order, then emit
`(route, ','.join(first 3 ETAs))` pairs with routes in ascending sorted
order. -/
def format_train_text_with_badges (trains : List TrainOut) :
    List (String × String) :=
  if trains.isEmpty then []
  else
    let rt := routeTimes trains
    (sortStrings (rt.map Prod.fst)).map
      (fun r => (r, joinCommaInts ((lookupTimes rt r).take 3)))

/-- All ETA minutes recorded for route `r`, in input order. -/
def minutesOfRoute (trains : List TrainOut) (r : String) : List Int :=
  (trains.filter (fun t => t.route = r)).map (fun t => t.minutes_until)

/-- Value type of the `get_next_trains_by_route` dict. -/
structure RouteEntry where
  north : Option Int
  south : Option Int
deriving DecidableEq

/-- The per-train dict update of `get_next_trains_by_route`: create the key
with empty slots when absent, then fill the direction slot only if it is
still `None`. -/
def updRoute (isNorth : Bool) (m : Int) :
    List (String × RouteEntry) → String → List (String × RouteEntry)
  | [], r => [(r, if isNorth then ⟨some m, none⟩ else ⟨none, some m⟩)]
  | (r', e) :: rest, r =>
    if r' = r then
      (r', if isNorth then (if e.north = none then ⟨some m, e.south⟩ else e)
           else (if e.south = none then ⟨e.north, some m⟩ else e)) :: rest
    else (r', e) :: updRoute isNorth m rest r

/-- `TrainTimeParser.get_next_trains_by_route` (lines 280-308): first-seen
ETA per route and direction, keys in insertion order. -/
def get_next_trains_by_route (parsed : ParseResult) : List (String × RouteEntry) :=
  let r1 := parsed.northbound.foldl (fun acc t => updRoute true t.minutes_until acc t.route) []
  parsed.southbound.foldl (fun acc t => updRoute false t.minutes_until acc t.route) r1

/-- One element of the payload's `"weather"` list; `description` models the
optional `"description"` field. -/
structure WeatherEntry where
  description : Option String
deriving DecidableEq

/-- The OpenWeather payload as consumed: the optional `"weather"` list and the
optional `["main"]["temp"]` value (modelled as the integer it is truncated
to). -/
structure WeatherPayload where
  weather : Option (List WeatherEntry)
  mainTemp : Option Int
deriving DecidableEq

/-- The `{'description': ..., 'temp_f': ...}` dict built by
`fetch_weather_data`. -/
structure WeatherResult where
  description : String
  temp_f : Int
deriving DecidableEq

/-- Python truthiness of `api_key`: `not api_key` is true for a missing key
and for an empty string. -/
def keyFalsy : Option String → Bool
  | none => true
  | some s => s.isEmpty

/-- Per-word manual capitalization of lines 201-205: uppercase the first
character, lowercase the rest. -/
def capWord : List Char → List Char
  | [] => []
  | c :: rest => c.toUpper :: rest.map Char.toLower

/-- The description post-processing of lines 198-206: split on single spaces,
drop empty words, capitalize each, re-join with single spaces. -/
def capitalizeWords (s : String) : String :=
  let words := splitOnChar ' ' s.toList
  let capped := (words.filter (fun w => w ≠ [])).map capWord
  String.mk (List.intercalate [' '] capped)

/-- `TrainTimeParser.fetch_weather_data` (lines 170-224).  `apiKey` models
`secrets.get('openweather_key')`; `fetchResult` models the network fetch plus
JSON decode, whose failure lands in the catch-all `except`. -/
def fetch_weather_data (apiKey : Option String)
    (fetchResult : Except Unit WeatherPayload) : WeatherResult :=
  if keyFalsy apiKey then ⟨"No API Key", 0⟩
  else
    match fetchResult with
    | .error _ => ⟨"Unknown", 0⟩
    | .ok data =>
      let weather_list := data.weather.getD [⟨none⟩]
      let description :=
        if weather_list.isEmpty then "Unknown"
        else capitalizeWords ((weather_list.headD ⟨none⟩).description.getD ("Unknown"))
      ⟨description, data.mainTemp.getD 0⟩

/-- One scroll tick of the `__main__` animation loop (lines 725-737) for one
line: decrement the position by exactly one pixel; when it has moved fully off
the left edge (`position <= -contentWidth`), jump back to the right edge
(`frameWidth`). -/
def scrollAdvance (W F p : Int) : Int :=
  let p1 := p - 1
  if p1 ≤ -W then F else p1

/-- `n` scroll ticks of one line. -/
def scrollIter (W F : Int) : Nat → Int → Int
  | 0, p => p
  | n + 1, p => scrollIter W F n (scrollAdvance W F p)

/-- One tick of the inner `for i in range(600)` loop: both lines advance
simultaneously and independently. -/
def cycleTick (Wn Ws F : Int) (st : Int × Int) : Int × Int :=
  (scrollAdvance Wn F st.1, scrollAdvance Ws F st.2)

/-- `n` simultaneous ticks of both lines. -/
def cycleSteps (Wn Ws F : Int) : Nat → (Int × Int) → Int × Int
  | 0, st => st
  | n + 1, st => cycleSteps Wn Ws F n (cycleTick Wn Ws F st)

/-- Positions of the (north, south) lines after `n` ticks of one refresh
cycle's animation phase.  The previous cycle's final positions are taken as an
argument and ignored, mirroring lines 721-722, where both loop-local positions
are re-initialized to 0 at the start of every cycle. -/
def cyclePositions (Wn Ws F : Int) (n : Nat) (_prevEnd : Int × Int) : Int × Int :=
  cycleSteps Wn Ws F n (0, 0)

/-- Pixel width contributed by one `(route, times)` pair in
`create_scrolling_display`: badge (12) + 3 spacing, then the times text at 6
pixels per character + 6 trailing. -/
def routeItemWidth (p : String × String) : Int :=
  15 + 6 * (p.2.length : Int) + 6

/-- `north_width` as computed by `create_scrolling_display` (lines 549-598):
`"Uptown: "` label (8 chars x 6 px), the route items, and, when weather is
present, a 12 px gap plus the description at 6 px per character. -/
def north_width_of (routeData : List (String × String)) (w : Option WeatherResult) : Int :=
  48 + (routeData.map routeItemWidth).sum +
    (match w with
     | none => 0
     | some wr => 12 + 6 * (wr.description.length : Int))

/-- `south_width` as computed by `create_scrolling_display` (lines 463-543):
`"Downtown: "` label (10 chars x 6 px), the route items, and, when weather is
present, a 12 px gap, the temperature digits, the 4 px degree mark and the
6 px `"F"`. -/
def south_width_of (routeData : List (String × String)) (w : Option WeatherResult) : Int :=
  60 + (routeData.map routeItemWidth).sum +
    (match w with
     | none => 0
     | some wr => 12 + 6 * ((toString wr.temp_f).length : Int) + 4 + 6)

/-- The two states of the session: the polling loop, and the terminal
power-down reached after the 20-minute cap (the `while True: time.sleep(3600)`
of lines 683-684). -/
inductive Mode where
  | active
  | dormant
deriving DecidableEq

/-- Observable events of one loop iteration, for stating which effects occur:
network fetches, display rebuilds, the error log line of the `except` handler,
and the blanking performed on the dormant transition. -/
inductive Ev where
  | weatherFetch
  | trainFetch
  | displayUpdate
  | errorLog
  | blanked
deriving DecidableEq

/-- Where, inside one loop body, an exception is raised (if any): during the
weather fetch, the train fetch, `parse_train_times`, or the display rebuild.
All are inside the `try` of lines 670-739. -/
inductive RaisePoint where
  | atWeather
  | atTrains
  | atParse
  | atDisplay
deriving DecidableEq

/-- The environment of one loop iteration: the monotonic clock reading taken
at the top of the body, whether (and where) this iteration raises, and the
data a successful iteration obtains. -/
structure Env where
  now : Int
  raiseAt : Option RaisePoint
  weatherResult : WeatherResult
  trainsResult : ParseResult
deriving DecidableEq

/-- The mutable state of the `__main__` loop (lines 653-745): the session
mode, `startup_time`, `last_weather_update`, the cached `weather`, display
brightness and blank flag, the last parsed `trains`, the sleep executed at the
end of the iteration, and the trace of observable events. -/
structure LoopState where
  mode : Mode
  startup : Int
  lastWeatherUpdate : Int
  weather : WeatherResult
  brightness : Int
  displayBlank : Bool
  trains : ParseResult
  slept : Int
  events : List Ev
deriving DecidableEq

/-- `run_duration = 20 * 60` (line 655). -/
def run_duration : Int := 20 * 60

/-- One iteration of the `while True` loop (lines 669-745).  In `dormant` the
program sits in the inner infinite sleep, so the state no longer changes.  In
`active`: if the cap is reached, blank the display, set brightness 0 and go
dormant; otherwise refresh weather when 600 s have passed, fetch and parse
trains, rebuild the display, and run the 600-tick animation (60 s of sleeps).
An exception at any stage falls to the `except` of lines 741-745: the effects
already performed stand, one error line is logged, and the iteration ends with
a 10 s sleep. -/
def sessionStep (env : Env) (s : LoopState) : LoopState :=
  if s.mode = Mode.dormant then s
  else if run_duration ≤ env.now - s.startup then
    { s with mode := Mode.dormant, displayBlank := true, brightness := 0,
             events := s.events ++ [Ev.blanked] }
  else if env.raiseAt = some RaisePoint.atWeather ∧
          600 ≤ env.now - s.lastWeatherUpdate then
    { s with slept := 10, events := s.events ++ [Ev.errorLog] }
  else
    let s1 :=
      if 600 ≤ env.now - s.lastWeatherUpdate then
        { s with weather := env.weatherResult, lastWeatherUpdate := env.now,
                 events := s.events ++ [Ev.weatherFetch] }
      else s
    if env.raiseAt = some RaisePoint.atTrains then
      { s1 with slept := 10, events := s1.events ++ [Ev.errorLog] }
    else
      let s2 := { s1 with events := s1.events ++ [Ev.trainFetch] }
      if env.raiseAt = some RaisePoint.atParse then
        { s2 with slept := 10, events := s2.events ++ [Ev.errorLog] }
      else
        let s3 := { s2 with trains := env.trainsResult }
        if env.raiseAt = some RaisePoint.atDisplay then
          { s3 with slept := 10, events := s3.events ++ [Ev.errorLog] }
        else
          { s3 with displayBlank := false,
                    events := s3.events ++ [Ev.displayUpdate], slept := 60 }

/-- Iterated loop body over a list of per-iteration environments. -/
def runLoop (envs : List Env) (s : LoopState) : LoopState :=
  envs.foldl (fun st e => sessionStep e st) s

/-- Canonical "now" used by the concrete scenarios: 2026-01-07T12:00:00 UTC. -/
def nowEpoch : Int := mktimeE 2026 1 7 12 0 0

/-- Arrival scheduled 361 seconds after `nowEpoch`. -/
def iso361 : String := "2026-01-07T12:06:01+00:00"

/-- Arrival scheduled exactly 300 seconds after `nowEpoch`. -/
def iso300 : String := "2026-01-07T12:05:00+00:00"

/-- Feed payload with a single northbound arrival 361 s away. -/
def payload361 : Payload := ⟨some [⟨some [⟨"A", iso361⟩], none⟩]⟩

/-- Feed payload with a single northbound arrival exactly 300 s away. -/
def payload300 : Payload := ⟨some [⟨some [⟨"A", iso300⟩], none⟩]⟩

/-- A northbound list for the witness scenarios. -/
def demoTrains : List Train := [⟨"A", iso361⟩]

/-- Filtered arrivals with five qualifying "A" arrivals and one "B" arrival,
for the grouping witness. -/
def exTrains : List TrainOut :=
  [⟨"A", 10, "t1"⟩, ⟨"B", 50, "t2"⟩, ⟨"A", 20, "t3"⟩, ⟨"A", 30, "t4"⟩,
   ⟨"A", 40, "t5"⟩, ⟨"A", 55, "t6"⟩]

/-- Clock reading with no fifth (offset) token. -/
def clockNoTz : String := "2026-01-07 12:07:30.065 007 3"

/-- Clock reading whose fifth token is present but not a `±HHMM` offset. -/
def clockBadTz : String := "2026-01-07 12:07:30.065 007 3 UTC05 PST"

/-- An unparseable clock reading. -/
def clockGarbage : String := "hello"

/-- Clock reading whose fifth token is malformed as a signed offset (no sign
character) but whose digit slots still parse: `"0800"` is read with sign -1
(first character `'0'` is not `'+'`), hours `int("80") = 80`, minutes
`int("0") = 0`. -/
def clockDigitsTz : String := "2026-01-07 12:07:30.065 007 3 0800 PST"

/-- Placeholder weather value. -/
def wUnknown : WeatherResult := ⟨"Unknown", 0⟩

/-- Empty schedule. -/
def emptyParse : ParseResult := ⟨[], []⟩

/-- Fresh loop state at startup time 0. -/
def s0 : LoopState := ⟨Mode.active, 0, 0, wUnknown, 1, false, emptyParse, 0, []⟩

/-- Iteration environment in which the train fetch raises 100 s into the run. -/
def envC4 : Env := ⟨100, some RaisePoint.atTrains, wUnknown, emptyParse⟩

/-- Iteration environment observed exactly 1200 s after startup. -/
def envC3 : Env := ⟨1200, none, wUnknown, emptyParse⟩

/-- A later, fault-free iteration environment. -/
def envLater : Env := ⟨1500, none, wUnknown, emptyParse⟩

/-- When every arrival time in the list parses, the direction loop succeeds
and equals the filter of the threshold predicate over the input, in order. -/
theorem processDirection_eq_filterMap (now mn : Int) (ts : List Train)
    (h : ∀ t ∈ ts, (parse_iso8601_to_utc t.time).isSome = true) :
    processDirection now mn ts = some (ts.filterMap (filterFn now mn)) := by
  induction ts with
  | nil => rfl
  | cons t ts ih =>
    have ht : (parse_iso8601_to_utc t.time).isSome = true :=
      h t (List.mem_cons_self t ts)
    obtain ⟨u, hu⟩ := Option.isSome_iff_exists.mp ht
    have ih' := ih (fun t' ht' => h t' (List.mem_cons_of_mem t ht'))
    simp only [processDirection, hu, ih', List.filterMap_cons, filterFn]
    by_cases hc : mn < Int.tdiv (u - now) 60
    · simp [hc]
    · simp [hc]

/-- C1: `parse_train_times` keeps an arrival record in the output list of its
direction if and only if `etaMinutes = int((parse_iso8601_to_utc(time) -
now) / 60)` (truncating division) is strictly greater than `min_minutes`, and
the kept entry carries that `etaMinutes`.  In particular, with
`min_minutes = 5`, an arrival 361 s after now is kept with `etaMinutes = 6`,
and an arrival exactly 300 s after now is excluded. -/
theorem C1_threshold_filter :
    (∀ (ts : List Train) (now mn : Int),
        (∀ t ∈ ts, (parse_iso8601_to_utc t.time).isSome = true) →
        ∃ l, processDirection now mn ts = some l ∧
          ∀ o : TrainOut, o ∈ l ↔ ∃ t ∈ ts, ∃ u,
            parse_iso8601_to_utc t.time = some u ∧
            o = ⟨t.route, Int.tdiv (u - now) 60, t.time⟩ ∧
            mn < Int.tdiv (u - now) 60)
    ∧ parse_train_times (TimeResponse.num nowEpoch) 0 payload361 5
        = some ⟨[⟨"A", 6, iso361⟩], []⟩
    ∧ parse_train_times (TimeResponse.num nowEpoch) 0 payload300 5
        = some ⟨[], []⟩ := by
  refine ⟨?_, by decide, by decide⟩
  intro ts now mn h
  refine ⟨ts.filterMap (filterFn now mn),
          processDirection_eq_filterMap now mn ts h, ?_⟩
  intro o
  rw [List.mem_filterMap]
  constructor
  · rintro ⟨t, ht, hf⟩
    refine ⟨t, ht, ?_⟩
    unfold filterFn at hf
    cases hp : parse_iso8601_to_utc t.time with
    | none => rw [hp] at hf; exact absurd hf (by simp)
    | some u =>
      rw [hp, Option.some_bind] at hf
      by_cases hc : mn < Int.tdiv (u - now) 60
      · rw [if_pos hc] at hf
        exact ⟨u, rfl, (Option.some.inj hf).symm, hc⟩
      · rw [if_neg hc] at hf; exact absurd hf (by simp)
  · rintro ⟨t, ht, u, hu, ho, hc⟩
    refine ⟨t, ht, ?_⟩
    unfold filterFn
    rw [hu, Option.some_bind, if_pos hc, ho]

/-- Witness: the general threshold law of `C1_threshold_filter` applied to the
concrete one-arrival list `demoTrains` at `now = nowEpoch`, `min_minutes = 5`. -/
theorem C1_threshold_filter_witness :
    ∃ l, processDirection nowEpoch 5 demoTrains = some l ∧
      ∀ o : TrainOut, o ∈ l ↔ ∃ t ∈ demoTrains, ∃ u,
        parse_iso8601_to_utc t.time = some u ∧
        o = ⟨t.route, Int.tdiv (u - nowEpoch) 60, t.time⟩ ∧
        5 < Int.tdiv (u - nowEpoch) 60 :=
  C1_threshold_filter.1 demoTrains nowEpoch 5 (by decide)

/-- The Python lexicographic order is transitive. -/
theorem lexLeChars_trans (a : List Char) :
    ∀ b c, lexLeChars a b = true → lexLeChars b c = true →
      lexLeChars a c = true := by
  induction a with
  | nil => intro b c _ _; rfl
  | cons x xs ih =>
    intro b c h1 h2
    cases b with
    | nil => simp [lexLeChars] at h1
    | cons y ys =>
      cases c with
      | nil => simp [lexLeChars] at h2
      | cons z zs =>
        simp only [lexLeChars] at h1 h2 ⊢
        by_cases hxy : x = y
        · subst hxy
          rw [if_pos rfl] at h1
          by_cases hxz : x = z
          · subst hxz
            rw [if_pos rfl] at h2 ⊢
            exact ih ys zs h1 h2
          · rw [if_neg hxz] at h2 ⊢
            exact h2
        · rw [if_neg hxy] at h1
          have hxy' : x < y := of_decide_eq_true h1
          by_cases hyz : y = z
          · subst hyz
            rw [if_neg hxy]
            exact h1
          · rw [if_neg hyz] at h2
            have hyz' : y < z := of_decide_eq_true h2
            have hxz' : x < z := lt_trans hxy' hyz'
            rw [if_neg (ne_of_lt hxz')]
            exact decide_eq_true hxz'

/-- The Python lexicographic order is total. -/
theorem lexLeChars_total (a : List Char) :
    ∀ b, lexLeChars a b = true ∨ lexLeChars b a = true := by
  induction a with
  | nil => intro b; left; rfl
  | cons x xs ih =>
    intro b
    cases b with
    | nil => right; rfl
    | cons y ys =>
      simp only [lexLeChars]
      by_cases hxy : x = y
      · subst hxy
        rw [if_pos rfl, if_pos rfl]
        exact ih ys
      · rw [if_neg hxy, if_neg (Ne.symm hxy)]
        rcases lt_or_gt_of_ne hxy with h | h
        · left; exact decide_eq_true h
        · right; exact decide_eq_true h

/-- Looking a key up after one `addTime` sees the appended minute exactly on
that key. -/
theorem lookupTimes_addTime (acc : List (String × List Int)) (r q : String)
    (m : Int) :
    lookupTimes (addTime acc r m) q =
      if q = r then lookupTimes acc q ++ [m] else lookupTimes acc q := by
  induction acc with
  | nil =>
    by_cases h : q = r
    · subst h; simp [addTime, lookupTimes]
    · simp [addTime, lookupTimes, h, Ne.symm h]
  | cons p rest ih =>
    obtain ⟨r', ms⟩ := p
    by_cases h1 : r' = r
    · subst h1
      by_cases h2 : r' = q
      · subst h2; simp [addTime, lookupTimes]
      · simp [addTime, lookupTimes, h2, Ne.symm h2]
    · by_cases h2 : r' = q
      · subst h2; simp [addTime, lookupTimes, h1]
      · simp [addTime, lookupTimes, h1, h2, ih]

/-- Folding `addTime` over the arrivals accumulates, per key, exactly the
minutes of that route in input order. -/
theorem lookupTimes_routeTimes_aux (ts : List TrainOut) :
    ∀ (acc : List (String × List Int)) (q : String),
      lookupTimes (ts.foldl (fun a t => addTime a t.route t.minutes_until) acc) q
        = lookupTimes acc q ++ minutesOfRoute ts q := by
  induction ts with
  | nil => intro acc q; simp [minutesOfRoute]
  | cons t ts ih =>
    intro acc q
    simp only [List.foldl_cons]
    rw [ih, lookupTimes_addTime]
    by_cases h : q = t.route
    · rw [if_pos h]
      have hm : minutesOfRoute (t :: ts) q = t.minutes_until :: minutesOfRoute ts q := by
        simp [minutesOfRoute, List.filter_cons, h.symm]
      rw [hm]
      simp [List.append_assoc]
    · rw [if_neg h]
      have hm : minutesOfRoute (t :: ts) q = minutesOfRoute ts q := by
        simp [minutesOfRoute, List.filter_cons, Ne.symm h]
      rw [hm]

/-- The `route_times` dict holds, under each route, all of that route's
minutes in input order. -/
theorem lookupTimes_routeTimes (ts : List TrainOut) (q : String) :
    lookupTimes (routeTimes ts) q = minutesOfRoute ts q := by
  have h := lookupTimes_routeTimes_aux ts [] q
  simpa [routeTimes, lookupTimes] using h

/-- C2: every `(route, times)` pair emitted by
`format_train_text_with_badges` (the code's per-direction route grouping)
carries exactly the first three ETAs of that route in input order — hence
never more than three, even when more qualifying arrivals exist — and the
route keys appear in ascending lexicographic order. -/
theorem C2_group_bound (trains : List TrainOut) :
    (∀ r s, (r, s) ∈ format_train_text_with_badges trains →
        s = joinCommaInts ((minutesOfRoute trains r).take 3) ∧
        ((minutesOfRoute trains r).take 3).length ≤ 3)
    ∧ List.Sorted (fun a b => strLe a b = true)
        ((format_train_text_with_badges trains).map Prod.fst) := by
  constructor
  · intro r s hmem
    by_cases he : trains.isEmpty
    · simp [format_train_text_with_badges, he] at hmem
    · simp only [format_train_text_with_badges, if_neg he] at hmem
      rw [List.mem_map] at hmem
      obtain ⟨k, hk, hEq⟩ := hmem
      cases hEq
      rw [lookupTimes_routeTimes]
      refine ⟨rfl, ?_⟩
      rw [List.length_take]
      exact min_le_left _ _
  · by_cases he : trains.isEmpty
    · simp [format_train_text_with_badges, he]
    · simp only [format_train_text_with_badges, if_neg he]
      rw [List.map_map]
      have hid : (Prod.fst ∘ fun r =>
          (r, joinCommaInts ((lookupTimes (routeTimes trains) r).take 3))) = id := rfl
      rw [hid, List.map_id]
      haveI : IsTotal String (fun a b => strLe a b = true) :=
        ⟨fun a b => lexLeChars_total a.toList b.toList⟩
      haveI : IsTrans String (fun a b => strLe a b = true) :=
        ⟨fun a b c => lexLeChars_trans a.toList b.toList c.toList⟩
      exact List.sorted_insertionSort _ _

/-- Witness: the grouping law of `C2_group_bound` at `exTrains`, which holds
five qualifying "A" arrivals; the emitted pair keeps only the first three. -/
theorem C2_group_bound_witness :
    ("A", "10,20,30") ∈ format_train_text_with_badges exTrains ∧
    ("10,20,30" = joinCommaInts ((minutesOfRoute exTrains ("A")).take 3) ∧
      ((minutesOfRoute exTrains ("A")).take 3).length ≤ 3) :=
  ⟨by decide, (C2_group_bound exTrains).1 ("A") ("10,20,30") (by decide)⟩

/-- Dormant is absorbing for a single iteration: nothing changes. -/
theorem sessionStep_dormant (e : Env) (s : LoopState)
    (h : s.mode = Mode.dormant) : sessionStep e s = s := by
  unfold sessionStep
  rw [if_pos h]

/-- Dormant is absorbing for any number of iterations. -/
theorem runLoop_dormant (envs : List Env) (s : LoopState)
    (h : s.mode = Mode.dormant) : runLoop envs s = s := by
  induction envs generalizing s with
  | nil => rfl
  | cons e es ih =>
    unfold runLoop
    rw [List.foldl_cons, sessionStep_dormant e s h]
    exact ih s h

/-- C3: in an Active iteration whose monotonic reading is at least 1200 s
past startup, the loop transitions to Dormant, blanks the display, sets
brightness 0, and performs no fetch in doing so (only the blanking event is
emitted); Dormant is terminal, so afterwards no iteration changes the state —
in particular no train fetch, weather fetch, or display update event is ever
appended again, and the Active→Dormant transition can occur only this once. -/
theorem C3_session_cap (s : LoopState) (env : Env)
    (hA : s.mode = Mode.active)
    (hCap : run_duration ≤ env.now - s.startup) :
    (sessionStep env s).mode = Mode.dormant
    ∧ (sessionStep env s).displayBlank = true
    ∧ (sessionStep env s).brightness = 0
    ∧ (sessionStep env s).events = s.events ++ [Ev.blanked]
    ∧ ∀ envs, runLoop envs (sessionStep env s) = sessionStep env s := by
  have hnd : ¬ s.mode = Mode.dormant := by rw [hA]; intro h; cases h
  have hstep : sessionStep env s =
      { s with mode := Mode.dormant, displayBlank := true, brightness := 0,
               events := s.events ++ [Ev.blanked] } := by
    unfold sessionStep
    rw [if_neg hnd, if_pos hCap]
  rw [hstep]
  refine ⟨rfl, rfl, rfl, rfl, ?_⟩
  intro envs
  exact runLoop_dormant envs _ rfl

/-- Witness: the cap transition of `C3_session_cap` at the concrete state
`s0` and the iteration environment `envC3` read exactly 1200 s after startup,
followed by the later fault-free environment `envLater`. -/
theorem C3_session_cap_witness :
    (sessionStep envC3 s0).mode = Mode.dormant
    ∧ runLoop [envLater] (sessionStep envC3 s0) = sessionStep envC3 s0 :=
  ⟨(C3_session_cap s0 envC3 (by decide) (by decide)).1,
   (C3_session_cap s0 envC3 (by decide) (by decide)).2.2.2.2 [envLater]⟩

/-- C4 (counterexample for the claim as stated): the claim asserts that a
retry count is incremented on each error caught in an Active cycle.  At this
concrete fault (the train fetch raises, 100 s into the run), the whole effect
of the `except` handler at src/code.py lines 741-745 is the 10 s backoff sleep
and one logged error line: the resulting state equals the prior state with
only `slept` and the log event changed.  The loop's persistent variables
(lines 654-667: `startup_time`, `last_weather_update`, `weather`, the display
groups and widths) include no retry counter, and none of them changes, so no
retry count is incremented anywhere. -/
theorem C4_no_retry_counter :
    sessionStep envC4 s0 = { s0 with slept := 10, events := [Ev.errorLog] } := by
  decide

/-- C4 (amended): every exception raised by the weather fetch, the train
fetch, parsing, or the display rebuild inside an Active, non-expired cycle is
caught at the cycle boundary: the session stays Active, one error line is
logged, and the iteration ends with the fixed 10-second backoff sleep before
the loop retries; the only events that can precede the error in that cycle
are the fetches already performed.  (No retry count is maintained — the code
only logs the error.) -/
theorem C4_error_backoff (s : LoopState) (env : Env) (rp : RaisePoint)
    (hA : s.mode = Mode.active)
    (hCap : env.now - s.startup < run_duration)
    (hr : env.raiseAt = some rp)
    (hwx : rp = RaisePoint.atWeather → 600 ≤ env.now - s.lastWeatherUpdate) :
    (sessionStep env s).mode = Mode.active
    ∧ (sessionStep env s).slept = 10
    ∧ ∃ pre : List Ev, (sessionStep env s).events = s.events ++ (pre ++ [Ev.errorLog])
        ∧ ∀ e ∈ pre, e = Ev.weatherFetch ∨ e = Ev.trainFetch := by
  have hnd : ¬ s.mode = Mode.dormant := by rw [hA]; intro h; cases h
  have hnc : ¬ run_duration ≤ env.now - s.startup := not_le.2 hCap
  cases rp with
  | atWeather =>
    have hdue := hwx rfl
    simp only [sessionStep, if_neg hnd, if_neg hnc, hr, hdue]
    refine ⟨hA, rfl, [], by simp, ?_⟩
    intro e he
    exact absurd he (List.not_mem_nil e)
  | atTrains =>
    by_cases hdue : 600 ≤ env.now - s.lastWeatherUpdate
    · simp only [sessionStep, if_neg hnd, if_neg hnc, hr, hdue]
      refine ⟨hA, rfl, [Ev.weatherFetch], by simp, ?_⟩
      intro e he
      exact Or.inl (List.mem_singleton.mp he)
    · simp only [sessionStep, if_neg hnd, if_neg hnc, hr, hdue]
      refine ⟨hA, rfl, [], by simp, ?_⟩
      intro e he
      exact absurd he (List.not_mem_nil e)
  | atParse =>
    by_cases hdue : 600 ≤ env.now - s.lastWeatherUpdate
    · simp only [sessionStep, if_neg hnd, if_neg hnc, hr, hdue]
      refine ⟨hA, rfl, [Ev.weatherFetch, Ev.trainFetch], by simp, ?_⟩
      intro e he
      rcases List.mem_cons.mp he with h | h
      · exact Or.inl h
      · exact Or.inr (List.mem_singleton.mp h)
    · simp only [sessionStep, if_neg hnd, if_neg hnc, hr, hdue]
      refine ⟨hA, rfl, [Ev.trainFetch], by simp, ?_⟩
      intro e he
      exact Or.inr (List.mem_singleton.mp he)
  | atDisplay =>
    by_cases hdue : 600 ≤ env.now - s.lastWeatherUpdate
    · simp only [sessionStep, if_neg hnd, if_neg hnc, hr, hdue]
      refine ⟨hA, rfl, [Ev.weatherFetch, Ev.trainFetch], by simp, ?_⟩
      intro e he
      rcases List.mem_cons.mp he with h | h
      · exact Or.inl h
      · exact Or.inr (List.mem_singleton.mp h)
    · simp only [sessionStep, if_neg hnd, if_neg hnc, hr, hdue]
      refine ⟨hA, rfl, [Ev.trainFetch], by simp, ?_⟩
      intro e he
      exact Or.inr (List.mem_singleton.mp he)

/-- Witness: the amended error-handling law of `C4_error_backoff` at the
concrete faulting iteration `envC4` from state `s0`. -/
theorem C4_error_backoff_witness :
    (sessionStep envC4 s0).mode = Mode.active
    ∧ (sessionStep envC4 s0).slept = 10
    ∧ ∃ pre : List Ev, (sessionStep envC4 s0).events = s0.events ++ (pre ++ [Ev.errorLog])
        ∧ ∀ e ∈ pre, e = Ev.weatherFetch ∨ e = Ev.trainFetch :=
  C4_error_backoff s0 envC4 RaisePoint.atTrains (by decide) (by decide) (by decide)
    (fun h => absurd h (by decide))

/-- C5 (counterexample for the claim as stated): the claim says a malformed
signed 4-digit offset token is defaulted to `+0000`, i.e. the parsed local
epoch is returned unchanged.  On `clockBadTz` (offset token `"UTC05"`), the
code instead hits `int()` with non-digits, lands in the
`except (ValueError, IndexError)` of src/code.py line 103, and returns the
host wall clock (here the sentinel 999) — not the local epoch
`mktimeE 2026 1 7 12 7 30` of the reading's date and time fields. -/
theorem C5_malformed_not_defaulted :
    get_current_time_utc (TimeResponse.text clockBadTz) 999 = 999
    ∧ mktimeE 2026 1 7 12 7 30 ≠ 999 := by
  exact ⟨rfl, by decide⟩

/-- The formatted-string branch with fewer than five tokens: the `"+0000"`
default offset applies and the parsed local epoch is returned unchanged. -/
theorem parseClockString_absent (l : List Char) (wall : Int)
    (date_str time_str : List Char) (rest : List (List Char))
    (y m d h mi s : Int)
    (hp : (splitOnChar ' ' l).filter (fun w => w ≠ []) = date_str :: time_str :: rest)
    (hlen : (date_str :: time_str :: rest).length ≤ 4)
    (hd : parseClockDate date_str = some (y, m, d))
    (ht : parseClockTime time_str = some (h, mi, s)) :
    parseClockString l wall = mktimeE y m d h mi s := by
  unfold parseClockString
  rw [hp]
  dsimp only
  have hnl : ¬ 4 < (date_str :: time_str :: rest).length := Nat.not_lt.2 hlen
  rw [if_neg hnl, hd, ht,
      show parseTzOffset ['+', '0', '0', '0', '0'] = some (1 * (0 * 3600 + 0 * 60)) from rfl]
  dsimp only
  omega

/-- The formatted-string branch with a fifth token whose digit slots parse:
whatever its first character, the token is applied as an offset with sign
`+1` for `'+'` and `-1` for anything else — no default, no fallback. -/
theorem parseClockString_token (l : List Char) (wall : Int)
    (date_str time_str : List Char) (rest : List (List Char))
    (y m d h mi s : Int) (c0 : Char) (tokRest : List Char) (hh mm : Int)
    (hp : (splitOnChar ' ' l).filter (fun w => w ≠ []) = date_str :: time_str :: rest)
    (hlen : 4 < (date_str :: time_str :: rest).length)
    (htok : rest.getD 2 [] = c0 :: tokRest)
    (hhh : parseIntChars (tokRest.take 2) = some hh)
    (hmm : parseIntChars ((tokRest.drop 2).take 2) = some mm)
    (hd : parseClockDate date_str = some (y, m, d))
    (ht : parseClockTime time_str = some (h, mi, s)) :
    parseClockString l wall
      = mktimeE y m d h mi s - (if c0 = '+' then 1 else -1) * (hh * 3600 + mm * 60) := by
  unfold parseClockString
  rw [hp]
  dsimp only
  rw [if_pos hlen, htok, hd, ht]
  unfold parseTzOffset
  dsimp only
  rw [hhh, hmm]

/-- Any failing piece of the positional parse — date token, time token, or
the (possibly defaulted) offset token — sends the function to the wall-clock
fallback. -/
theorem parseClockString_fail (l : List Char) (wall : Int)
    (date_str time_str : List Char) (rest : List (List Char))
    (hp : (splitOnChar ' ' l).filter (fun w => w ≠ []) = date_str :: time_str :: rest)
    (hfail : parseClockDate date_str = none ∨ parseClockTime time_str = none ∨
      parseTzOffset (if 4 < (date_str :: time_str :: rest).length then rest.getD 2 []
                     else ['+', '0', '0', '0', '0']) = none) :
    parseClockString l wall = wall := by
  unfold parseClockString
  rw [hp]
  dsimp only
  rcases hfail with hf | hf | hf
  · rw [hf]
  · rw [hf]
    cases parseClockDate date_str <;>
      cases parseTzOffset (if 4 < (date_str :: time_str :: rest).length then rest.getD 2 []
          else ['+', '0', '0', '0', '0']) <;> rfl
  · rw [hf]
    cases parseClockDate date_str <;> cases parseClockTime time_str <;> rfl

/-- Fewer than two whitespace tokens: the `parts[0]` / `parts[1]` indexing
raises `IndexError`, landing in the wall-clock fallback. -/
theorem parseClockString_short (l : List Char) (wall : Int)
    (hlen : ((splitOnChar ' ' l).filter (fun w => w ≠ [])).length < 2) :
    parseClockString l wall = wall := by
  unfold parseClockString
  cases hf : (splitOnChar ' ' l).filter (fun w => w ≠ []) with
  | nil => rfl
  | cons x xs =>
    cases xs with
    | nil => rfl
    | cons x2 xs2 =>
      rw [hf] at hlen
      simp only [List.length_cons] at hlen
      omega

/-- C5 (amended): for every formatted-string clock reading in which the
signed 4-digit timezone-offset token is absent (fewer than five whitespace
tokens), `get_current_time_utc` applies the default `"+0000"` and returns the
parsed local epoch unchanged.  A present-but-malformed token is NOT defaulted:
the token is parsed positionally, taking the first character as the sign
(`'+'` means +1, any other character -1) and characters 1-2 / 3-4 as hour and
minute digits, so a malformed token whose digit slots parse (such as
`"0800"`) is silently applied as an offset, while a token whose digit slots
fail integer parsing makes the parse raise; on that and on every other parse
failure of the string (failing date or time token, fewer than two tokens) the
function falls back to the host's current wall-clock time rather than raising
to the caller.  Conjuncts: the string branch is `parseClockString`; the
absent-token default law; the present-token positional law; the parse-failure
fallback laws; the unknown-shape fallback; and the four concrete readings. -/
theorem C5_offset_default_fallback :
    (∀ (str : String) (wall : Int),
        get_current_time_utc (TimeResponse.text str) wall = parseClockString str.toList wall)
    ∧ (∀ (l : List Char) (wall : Int) (date_str time_str : List Char)
          (rest : List (List Char)) (y m d h mi s : Int),
        (splitOnChar ' ' l).filter (fun w => w ≠ []) = date_str :: time_str :: rest →
        (date_str :: time_str :: rest).length ≤ 4 →
        parseClockDate date_str = some (y, m, d) →
        parseClockTime time_str = some (h, mi, s) →
        parseClockString l wall = mktimeE y m d h mi s)
    ∧ (∀ (l : List Char) (wall : Int) (date_str time_str : List Char)
          (rest : List (List Char)) (y m d h mi s : Int) (c0 : Char)
          (tokRest : List Char) (hh mm : Int),
        (splitOnChar ' ' l).filter (fun w => w ≠ []) = date_str :: time_str :: rest →
        4 < (date_str :: time_str :: rest).length →
        rest.getD 2 [] = c0 :: tokRest →
        parseIntChars (tokRest.take 2) = some hh →
        parseIntChars ((tokRest.drop 2).take 2) = some mm →
        parseClockDate date_str = some (y, m, d) →
        parseClockTime time_str = some (h, mi, s) →
        parseClockString l wall
          = mktimeE y m d h mi s - (if c0 = '+' then 1 else -1) * (hh * 3600 + mm * 60))
    ∧ (∀ (l : List Char) (wall : Int) (date_str time_str : List Char)
          (rest : List (List Char)),
        (splitOnChar ' ' l).filter (fun w => w ≠ []) = date_str :: time_str :: rest →
        (parseClockDate date_str = none ∨ parseClockTime time_str = none ∨
          parseTzOffset (if 4 < (date_str :: time_str :: rest).length then rest.getD 2 []
                         else ['+', '0', '0', '0', '0']) = none) →
        parseClockString l wall = wall)
    ∧ (∀ (l : List Char) (wall : Int),
        ((splitOnChar ' ' l).filter (fun w => w ≠ [])).length < 2 →
        parseClockString l wall = wall)
    ∧ (∀ wall : Int, get_current_time_utc TimeResponse.unknown wall = wall)
    ∧ (∀ wall : Int,
        get_current_time_utc (TimeResponse.text clockNoTz) wall
          = mktimeE 2026 1 7 12 7 30)
    ∧ (∀ wall : Int, get_current_time_utc (TimeResponse.text clockBadTz) wall = wall)
    ∧ (∀ wall : Int,
        get_current_time_utc (TimeResponse.text clockDigitsTz) wall
          = mktimeE 2026 1 7 12 7 30 + 288000)
    ∧ (∀ wall : Int, get_current_time_utc (TimeResponse.text clockGarbage) wall = wall) := by
  refine ⟨fun str wall => rfl,
         fun l wall ds ts rest y m d h mi s hp hlen hd ht =>
           parseClockString_absent l wall ds ts rest y m d h mi s hp hlen hd ht,
         fun l wall ds ts rest y m d h mi s c0 tokRest hh mm hp hlen htok hhh hmm hd ht =>
           parseClockString_token l wall ds ts rest y m d h mi s c0 tokRest hh mm
             hp hlen htok hhh hmm hd ht,
         fun l wall ds ts rest hp hfail =>
           parseClockString_fail l wall ds ts rest hp hfail,
         fun l wall hlen => parseClockString_short l wall hlen,
         fun wall => rfl, fun wall => rfl, fun wall => rfl, fun wall => rfl, fun wall => rfl⟩

/-- Witness: the present-token positional law of `C5_offset_default_fallback`
at the concrete malformed reading `clockDigitsTz`, whose offset token
`"0800"` has no sign character yet is silently applied with sign -1. -/
theorem C5_offset_default_fallback_witness :
    parseClockString clockDigitsTz.toList 999
      = mktimeE 2026 1 7 12 7 30
          - (if '0' = '+' then 1 else -1) * (80 * 3600 + 0 * 60) :=
  C5_offset_default_fallback.2.2.1 clockDigitsTz.toList 999
    ("2026-01-07".toList) ("12:07:30.065".toList)
    [("007").toList, ("3").toList, ("0800").toList, ("PST").toList]
    2026 1 7 12 7 30 '0' ("800".toList) 80 0
    (by decide) (by decide) (by decide) (by decide) (by decide) (by decide) (by decide)

/-- C6: `parse_iso8601_to_utc` turns both spellings of the same instant into
the same UTC epoch, and on each the value is the calendar-arithmetic local
epoch of the date and time fields minus the signed offset in seconds. -/
theorem C6_iso_offset_equiv :
    parse_iso8601_to_utc ("2026-01-07T14:33:01-05:00")
        = some (mktimeE 2026 1 7 14 33 1 - (-1) * (5 * 3600 + 0 * 60))
    ∧ parse_iso8601_to_utc ("2026-01-07T19:33:01+00:00")
        = some (mktimeE 2026 1 7 19 33 1 - 1 * (0 * 3600 + 0 * 60))
    ∧ parse_iso8601_to_utc ("2026-01-07T14:33:01-05:00")
        = parse_iso8601_to_utc ("2026-01-07T19:33:01+00:00") := by
  exact ⟨by decide, by decide, by decide⟩

/-- On the reachable band `-W < p ≤ F`, one tick acts as a decrement of the
cyclic coordinate `F - p` modulo `W + F`. -/
theorem scrollAdvance_emod (W F p : Int) (hW : 0 < W) (h1 : -W < p) (h2 : p ≤ F) :
    scrollAdvance W F p = F - (F - p + 1) % (W + F) := by
  unfold scrollAdvance
  by_cases hc : p - 1 ≤ -W
  · rw [if_pos hc]
    have hp : p = -W + 1 := by omega
    subst hp
    have he : F - (-W + 1) + 1 = W + F := by ring
    rw [he, Int.emod_self]
    ring
  · rw [if_neg hc]
    have h0 : 0 ≤ F - p + 1 := by omega
    have hlt : F - p + 1 < W + F := by omega
    rw [Int.emod_eq_of_lt h0 hlt]
    ring

/-- Closed form for `n` ticks on the reachable band. -/
theorem scrollIter_emod (W F : Int) (hW : 0 < W) (hF : 0 ≤ F) :
    ∀ (n : Nat) (p : Int), -W < p → p ≤ F →
      scrollIter W F n p = F - (F - p + n) % (W + F) := by
  intro n
  induction n with
  | zero =>
    intro p h1 h2
    have h0 : 0 ≤ F - p := by omega
    have hlt : F - p < W + F := by omega
    simp only [scrollIter, Nat.cast_zero, add_zero]
    rw [Int.emod_eq_of_lt h0 hlt]
    ring
  | succ n ih =>
    intro p h1 h2
    have hadv : scrollAdvance W F p = F - (F - p + 1) % (W + F) :=
      scrollAdvance_emod W F p hW h1 h2
    have hM : (0:Int) < W + F := by omega
    have hr0 : 0 ≤ (F - p + 1) % (W + F) := Int.emod_nonneg _ (by omega)
    have hrlt : (F - p + 1) % (W + F) < W + F := Int.emod_lt_of_pos _ hM
    have h1' : -W < scrollAdvance W F p := by rw [hadv]; omega
    have h2' : scrollAdvance W F p ≤ F := by rw [hadv]; omega
    simp only [scrollIter]
    rw [ih (scrollAdvance W F p) h1' h2', hadv]
    have hsimp : F - (F - (F - (F - p + 1) % (W + F)) + (n:Int)) % (W + F)
        = F - ((F - p + 1) % (W + F) + (n:Int)) % (W + F) := by ring_nf
    rw [hsimp, Int.emod_add_emod]
    congr 2
    push_cast
    ring

/-- C7: on every reachable position `-W < p ≤ F` of a scroll line with
content width `W > 0` and frame width `F ≥ 0`, one tick decrements the
position by exactly 1, resetting to `F` when the decremented position reaches
`-W`; consequently `W + F` ticks return the line exactly to `p` — in
particular to a position congruent to `p` modulo `W + F`. -/
theorem C7_scroll_wraparound (W F p : Int) (hW : 0 < W) (hF : 0 ≤ F)
    (h1 : -W < p) (h2 : p ≤ F) :
    (scrollAdvance W F p = if p - 1 ≤ -W then F else p - 1)
    ∧ scrollIter W F (W + F).toNat p = p
    ∧ (scrollIter W F (W + F).toNat p) % (W + F) = p % (W + F) := by
  have hM : (0:Int) ≤ W + F := by omega
  have hcast : (((W + F).toNat : Int)) = W + F := Int.toNat_of_nonneg hM
  have key : scrollIter W F (W + F).toNat p = p := by
    rw [scrollIter_emod W F hW hF _ p h1 h2, hcast]
    have hsplit : F - p + (W + F) = (F - p) + (W + F) * 1 := by ring
    rw [hsplit, Int.add_mul_emod_self_left]
    have h0 : 0 ≤ F - p := by omega
    have hlt : F - p < W + F := by omega
    rw [Int.emod_eq_of_lt h0 hlt]
    ring
  exact ⟨rfl, key, by rw [key]⟩

/-- Witness: the wraparound period of `C7_scroll_wraparound` for a line of
content width 5 in a frame of width 3, starting at the initial position 0:
8 ticks return it to 0. -/
theorem C7_scroll_wraparound_witness :
    scrollIter 5 3 ((5 + 3 : Int)).toNat 0 = 0 :=
  (C7_scroll_wraparound 5 3 0 (by decide) (by decide) (by decide) (by decide)).2.1

/-- While no wraparound has occurred, `n` ticks subtract exactly `n`. -/
theorem scrollIter_no_wrap (W F : Int) :
    ∀ (n : Nat) (p : Int), -W < p - n → scrollIter W F n p = p - n := by
  intro n
  induction n with
  | zero => intro p h; simp [scrollIter]
  | succ n ih =>
    intro p h
    have hc : ¬ (p - 1 ≤ -W) := by push_cast at h; omega
    simp only [scrollIter]
    rw [show scrollAdvance W F p = p - 1 from by unfold scrollAdvance; rw [if_neg hc]]
    rw [ih (p - 1) (by push_cast at h ⊢; omega)]
    push_cast
    ring

/-- The simultaneous two-line animation is the product of the per-line ones. -/
theorem cycleSteps_pair (Wn Ws F : Int) : ∀ (n : Nat) (p q : Int),
    cycleSteps Wn Ws F n (p, q) = (scrollIter Wn F n p, scrollIter Ws F n q) := by
  intro n
  induction n with
  | zero => intro p q; rfl
  | succ n ih =>
    intro p q
    simp only [cycleSteps, cycleTick, scrollIter]
    exact ih _ _

/-- Route items contribute nonnegative pixel width. -/
theorem routeItems_nonneg (routeData : List (String × String)) :
    0 ≤ (routeData.map routeItemWidth).sum := by
  apply List.sum_nonneg
  intro x hx
  obtain ⟨p, _, rfl⟩ := List.mem_map.mp hx
  unfold routeItemWidth
  positivity

/-- C10: every refresh cycle's animation phase starts with both scroll
positions reset to 0, whatever the previous cycle's final positions were; the
first tick therefore places both lines at -1 (the widths always exceed the
label minima 48 and 60 px, so no immediate wrap is possible); and the two
lines stay in identical phase — both at `-n` after `n` ticks — until one of
them first wraps. -/
theorem C10_cycle_phase_reset :
    (∀ (Wn Ws F : Int) (prevEnd : Int × Int),
        cyclePositions Wn Ws F 0 prevEnd = (0, 0))
    ∧ (∀ (Wn Ws F : Int) (prevEnd : Int × Int), 2 ≤ Wn → 2 ≤ Ws →
        cyclePositions Wn Ws F 1 prevEnd = (-1, -1))
    ∧ (∀ (Wn Ws F : Int) (prevEnd : Int × Int) (n : Nat),
        (n : Int) < Wn → (n : Int) < Ws →
        cyclePositions Wn Ws F n prevEnd = (-(n : Int), -(n : Int)))
    ∧ (∀ routeData w,
        48 ≤ north_width_of routeData w ∧ 60 ≤ south_width_of routeData w) := by
  have key : ∀ (Wn Ws F : Int) (prevEnd : Int × Int) (n : Nat),
      (n : Int) < Wn → (n : Int) < Ws →
      cyclePositions Wn Ws F n prevEnd = (-(n : Int), -(n : Int)) := by
    intro Wn Ws F prevEnd n hn hs
    unfold cyclePositions
    rw [cycleSteps_pair]
    rw [scrollIter_no_wrap Wn F n 0 (by omega), scrollIter_no_wrap Ws F n 0 (by omega)]
    simp
  refine ⟨fun _ _ _ _ => rfl, ?_, key, ?_⟩
  · intro Wn Ws F prevEnd hn hs
    have h := key Wn Ws F prevEnd 1 (by push_cast; omega) (by push_cast; omega)
    simpa using h
  · intro routeData w
    have hs := routeItems_nonneg routeData
    cases w with
    | none =>
      constructor <;> (simp only [north_width_of, south_width_of]; omega)
    | some wr =>
      have hd : (0:Int) ≤ (wr.description.length : Int) := Int.natCast_nonneg _
      have ht : (0:Int) ≤ ((toString wr.temp_f).length : Int) := Int.natCast_nonneg _
      constructor <;> (simp only [north_width_of, south_width_of]; omega)

/-- Witness: the identical-phase law of `C10_cycle_phase_reset` for widths 3,
frame 5, previous cycle ending at `(7, 9)`: after 2 ticks both lines are at
-2. -/
theorem C10_cycle_phase_reset_witness :
    cyclePositions 3 3 5 2 (7, 9) = (-2, -2) :=
  C10_cycle_phase_reset.2.2.1 3 3 5 (7, 9) 2 (by decide) (by decide)

/-- C8: for every clock response, wall-clock value and threshold, a feed
payload whose top-level `data` key is missing, or maps to an empty sequence,
makes `parse_train_times` return the empty schedule for both directions
without raising (the result is `some`, never an error). -/
theorem C8_empty_payload :
    ∀ (resp : TimeResponse) (wall mn : Int),
      parse_train_times resp wall ⟨none⟩ mn = some ⟨[], []⟩
      ∧ parse_train_times resp wall ⟨some []⟩ mn = some ⟨[], []⟩ := by
  intro resp wall mn
  exact ⟨rfl, rfl⟩

/-- C9: `fetch_weather_data` is a total function — no input makes it
propagate an error.  A missing (or empty, hence falsy) API key yields
`{description: "No API Key", temp_f: 0}` without any fetch; a raising fetch or
an undecodable payload yields `{description: "Unknown", temp_f: 0}`; and in an
otherwise well-formed payload each missing field degrades to `"Unknown"` /
`0` independently. -/
theorem C9_weather_total :
    (∀ fetchResult, fetch_weather_data none fetchResult = ⟨"No API Key", 0⟩)
    ∧ (∀ fetchResult, fetch_weather_data (some ("")) fetchResult = ⟨"No API Key", 0⟩)
    ∧ (∀ k, keyFalsy k = false →
        fetch_weather_data k (Except.error ()) = ⟨"Unknown", 0⟩)
    ∧ fetch_weather_data (some ("k")) (Except.ok ⟨none, none⟩) = ⟨"Unknown", 0⟩
    ∧ fetch_weather_data (some ("k")) (Except.ok ⟨some [], none⟩) = ⟨"Unknown", 0⟩
    ∧ fetch_weather_data (some ("k")) (Except.ok ⟨some [⟨none⟩], some 72⟩)
        = ⟨"Unknown", 72⟩ := by
  refine ⟨fun _ => rfl, fun _ => rfl, ?_, by decide, by decide, by decide⟩
  intro k hk
  unfold fetch_weather_data
  rw [hk]
  rfl

/-- Witness: the no-error law of `C9_weather_total` at the concrete nonempty
key `"x"` with a raising fetch. -/
theorem C9_weather_total_witness :
    fetch_weather_data (some ("x")) (Except.error ()) = ⟨"Unknown", 0⟩ :=
  C9_weather_total.2.2.1 (some ("x")) (by decide)
